import Mathlib

/-!
Shallow embedding of the hotel booking system (src/hotel.py, src/models.py,
src/db.py, src/payment.py).

The SQLite store (db.py) is modelled as a record of lists, one per table,
in insertion order; a plain `INSERT` on a primary-key table either appends
(key absent) or fails with an integrity error (key present), and
`INSERT OR IGNORE` appends or silently skips.  The `status` column of a
booking only ever holds one of the four strings "booked", "checked_in",
"checked_out", "cancelled", modelled as the inductive type `BStatus`.
Python `date` values are modelled as `Int` day ordinals: comparison is the
usual order and `(d2 - d1).days` is `d2 - d1`.  SQLite `REAL` prices and
amounts are modelled as `ℚ`.  The notification service (notification.py)
is omitted: every call to it in hotel.py is wrapped in `try/except: pass`
and it never reads or writes the store, so it has no effect on any state
or result the claims mention.  Likewise `save_json` only mirrors the store
to a file and never changes it.  Fresh `uuid.uuid4()` identifiers are
modelled as explicit string parameters of the operations that generate
them.  Operations that raise `HotelError` in Python return `Except`
values here; in hotel.py every raise happens before any write, so an
error leaves the store untouched.
-/

namespace HotelSys

/-- The four values the `status` column of a booking takes (models.py:117). -/
inductive BStatus where
  | booked
  | checked_in
  | checked_out
  | cancelled
deriving DecidableEq, Repr

/-- models.py `Room` / db.py table `rooms`. -/
structure Room where
  room_number : String
  room_type : String
  price_per_night : ℚ
  is_occupied : Bool
deriving DecidableEq, Repr

/-- models.py `Guest` / db.py table `guests`. -/
structure Guest where
  guest_id : String
  name : String
  email : Option String
  phone : Option String
deriving DecidableEq, Repr

/-- models.py `Booking` / db.py table `bookings` (the table has no
`total_price` column; the stored record is these six fields). -/
structure Booking where
  booking_id : String
  guest_id : String
  room_number : String
  check_in_date : Int
  check_out_date : Int
  status : BStatus
deriving DecidableEq, Repr

/-- payment.py `Payment` / db.py table `payments`. -/
structure Payment where
  payment_id : String
  booking_id : String
  amount : ℚ
  payment_date : String
  payment_method : String
  status : String
  transaction_id : String
deriving DecidableEq, Repr

/-- The whole persistent store: the four SQLite tables, rows in insertion
order. -/
structure Hotel where
  rooms : List Room
  guests : List Guest
  bookings : List Booking
  payments : List Payment
deriving DecidableEq, Repr

/-- The error kinds behind the `HotelError` messages raised in hotel.py. -/
inductive HotelErr where
  | duplicateRoom
  | duplicateGuest
  | guestNotFound
  | roomNotFound
  | bookingNotFound
  | invalidDates
  | conflict
  | wrongStatus
  | dateMismatch
  | roomForBookingNotFound
  | duplicateBooking
deriving DecidableEq, Repr

/-- hotel.py:193 `find_room`: first row of `rooms` with the given key. -/
def find_room (h : Hotel) (room_number : String) : Option Room :=
  h.rooms.find? (fun r => r.room_number == room_number)

/-- hotel.py:246 `find_guest`. -/
def find_guest (h : Hotel) (guest_id : String) : Option Guest :=
  h.guests.find? (fun g => g.guest_id == guest_id)

/-- hotel.py:336 `find_booking`. -/
def find_booking (h : Hotel) (booking_id : String) : Option Booking :=
  h.bookings.find? (fun b => b.booking_id == booking_id)

/-- hotel.py:258 `_overlaps`: half-open interval intersection test. -/
def _overlaps (start1 end1 start2 end2 : Int) : Bool :=
  decide (start1 < end2) && decide (start2 < end1)

/-- hotel.py:266 `_room_has_conflict`: scan the room's bookings, skip
cancelled / checked_out rows, return true on the first overlap. -/
def _room_has_conflict (h : Hotel) (room_number : String)
    (check_in check_out : Int) : Bool :=
  (h.bookings.filter (fun b => b.room_number == room_number)).any
    (fun b =>
      !(b.status == BStatus.cancelled || b.status == BStatus.checked_out) &&
        _overlaps check_in check_out b.check_in_date b.check_out_date)

/-- hotel.py:227 `check_room_availability`: true means the room is TAKEN
(a conflict exists). -/
def check_room_availability (h : Hotel) (room_number : String)
    (check_in check_out : Int) : Bool :=
  _room_has_conflict h room_number check_in check_out

/-- hotel.py:169 `add_room`: plain INSERT, duplicate key raises. -/
def add_room (h : Hotel) (room : Room) : Except HotelErr Hotel :=
  if h.rooms.any (fun r => r.room_number == room.room_number) then
    Except.error HotelErr.duplicateRoom
  else
    Except.ok { h with rooms := h.rooms ++ [room] }

/-- hotel.py:185 `remove_room`: DELETE by key. -/
def remove_room (h : Hotel) (room_number : String) : Hotel :=
  { h with rooms := h.rooms.filter (fun r => !(r.room_number == room_number)) }

/-- hotel.py:233 `register_guest`: plain INSERT, duplicate key raises. -/
def register_guest (h : Hotel) (guest : Guest) : Except HotelErr Hotel :=
  if h.guests.any (fun g => g.guest_id == guest.guest_id) then
    Except.error HotelErr.duplicateGuest
  else
    Except.ok { h with guests := h.guests ++ [guest] }

/-- hotel.py:283 `create_booking`.  `new_id` is the `uuid.uuid4()` string
generated on line 294.  The final guard models the `bookings` table's
PRIMARY KEY: the `INSERT` on line 297 raises an (uncaught)
`sqlite3.IntegrityError` when `new_id` is already stored, leaving the
store unchanged; with a fresh uuid that branch is never taken. -/
def create_booking (h : Hotel) (new_id guest_id room_number : String)
    (check_in check_out : Int) : Except HotelErr (Booking × Hotel) :=
  if check_out ≤ check_in then Except.error HotelErr.invalidDates
  else match find_guest h guest_id with
  | none => Except.error HotelErr.guestNotFound
  | some _ =>
    match find_room h room_number with
    | none => Except.error HotelErr.roomNotFound
    | some _ =>
      if _room_has_conflict h room_number check_in check_out then
        Except.error HotelErr.conflict
      else if h.bookings.any (fun x => x.booking_id == new_id) then
        Except.error HotelErr.duplicateBooking
      else
        let b : Booking :=
          ⟨new_id, guest_id, room_number, check_in, check_out, BStatus.booked⟩
        Except.ok (b, { h with bookings := h.bookings ++ [b] })

/-- hotel.py:310 `cancel_booking`: reject missing or terminal
(cancelled / checked_out) bookings, otherwise UPDATE status by key. -/
def cancel_booking (h : Hotel) (booking_id : String) : Except HotelErr Hotel :=
  match find_booking h booking_id with
  | none => Except.error HotelErr.bookingNotFound
  | some b =>
    if b.status == BStatus.cancelled || b.status == BStatus.checked_out then
      Except.error HotelErr.wrongStatus
    else
      Except.ok { h with
        bookings := h.bookings.map (fun x =>
          if x.booking_id == booking_id then
            { x with status := BStatus.cancelled }
          else x) }

/-- hotel.py:347 `check_in`: requires status `booked` and
`today == check_in_date`; updates the booking's status and sets
`is_occupied = 1` on the room row (no room-existence check). -/
def check_in (h : Hotel) (booking_id : String) (today : Int) :
    Except HotelErr Hotel :=
  match find_booking h booking_id with
  | none => Except.error HotelErr.bookingNotFound
  | some b =>
    if !(b.status == BStatus.booked) then Except.error HotelErr.wrongStatus
    else if !(b.check_in_date == today) then Except.error HotelErr.dateMismatch
    else
      Except.ok { h with
        bookings := h.bookings.map (fun x =>
          if x.booking_id == booking_id then
            { x with status := BStatus.checked_in }
          else x),
        rooms := h.rooms.map (fun r =>
          if r.room_number == b.room_number then
            { r with is_occupied := true }
          else r) }

/-- hotel.py:428 `process_payment`: build a Payment, mark it completed
with a fresh timestamp and transaction id, INSERT it.  `payment_id`,
`payment_date` and `transaction_id` are the values uuid4 / datetime.now
produce at the call. -/
def process_payment (h : Hotel) (payment_id booking_id : String) (amount : ℚ)
    (payment_method payment_date transaction_id : String) : Payment × Hotel :=
  let p : Payment :=
    ⟨payment_id, booking_id, amount, payment_date, payment_method,
      "completed", transaction_id⟩
  (p, { h with payments := h.payments ++ [p] })

/-- hotel.py:373 `check_out`: requires status `checked_in`,
`today == check_out_date` and an existing room row; computes
`nights * price_per_night`, flips the booking to `checked_out`, frees the
room, records the payment and returns the total. -/
def check_out (h : Hotel) (booking_id : String) (today : Int)
    (payment_id payment_date transaction_id : String) :
    Except HotelErr (ℚ × Hotel) :=
  match find_booking h booking_id with
  | none => Except.error HotelErr.bookingNotFound
  | some b =>
    if !(b.status == BStatus.checked_in) then Except.error HotelErr.wrongStatus
    else if !(b.check_out_date == today) then Except.error HotelErr.dateMismatch
    else
      match find_room h b.room_number with
      | none => Except.error HotelErr.roomForBookingNotFound
      | some room =>
        let nights : Int := b.check_out_date - b.check_in_date
        let total : ℚ := (nights : ℚ) * room.price_per_night
        let h1 : Hotel := { h with
          bookings := h.bookings.map (fun x =>
            if x.booking_id == booking_id then
              { x with status := BStatus.checked_out }
            else x),
          rooms := h.rooms.map (fun r =>
            if r.room_number == b.room_number then
              { r with is_occupied := false }
            else r) }
        let ph := process_payment h1 payment_id booking_id total "card"
          payment_date transaction_id
        Except.ok (total, ph.2)

/-- hotel.py:461 `get_payment_history`: for each booking row of the guest,
in table order, append every payment row carrying that booking id. -/
def get_payment_history (h : Hotel) (guest_id : String) : List Payment :=
  (h.bookings.filter (fun b => b.guest_id == guest_id)).flatMap
    (fun b => h.payments.filter (fun p => p.booking_id == b.booking_id))

/-- hotel.py:103 `_insert_booking_raw`: INSERT OR IGNORE — appends unless
the booking id is already present; no date or conflict validation. -/
def _insert_booking_raw (h : Hotel) (b : Booking) : Hotel :=
  if h.bookings.any (fun x => x.booking_id == b.booking_id) then h
  else { h with bookings := h.bookings ++ [b] }

/-- hotel.py:121 `_insert_payment_raw`: INSERT OR IGNORE on payment id. -/
def _insert_payment_raw (h : Hotel) (p : Payment) : Hotel :=
  if h.payments.any (fun x => x.payment_id == p.payment_id) then h
  else { h with payments := h.payments ++ [p] }

/-- One room record of a snapshot replayed by hotel.py:55 `load_json`:
`add_room` is attempted and a duplicate-key `HotelError` is swallowed. -/
def load_room_ignore (h : Hotel) (r : Room) : Hotel :=
  match add_room h r with
  | Except.ok h' => h'
  | Except.error _ => h

/-- One guest record of a replayed snapshot (duplicate swallowed). -/
def load_guest_ignore (h : Hotel) (g : Guest) : Hotel :=
  match register_guest h g with
  | Except.ok h' => h'
  | Except.error _ => h

/-- hotel.py:55 `load_json` on a snapshot whose records all parse: rooms,
then guests, then bookings (raw insert), then payments (raw insert). -/
def load_snapshot (h : Hotel) (rooms : List Room) (guests : List Guest)
    (bookings : List Booking) (payments : List Payment) : Hotel :=
  let h1 := rooms.foldl load_room_ignore h
  let h2 := guests.foldl load_guest_ignore h1
  let h3 := bookings.foldl _insert_booking_raw h2
  payments.foldl _insert_payment_raw h3

/-- The store right after `init_db` on a fresh database: all tables empty. -/
def emptyHotel : Hotel := ⟨[], [], [], []⟩

/-- A booking is *active* when its status is neither cancelled nor
checked_out (spec glossary; the statuses `_room_has_conflict` does not
skip). -/
def activeB (b : Booking) : Bool :=
  !(b.status == BStatus.cancelled || b.status == BStatus.checked_out)

/-- States reachable from a fresh store through the Hotel API operations
alone (no snapshot replay). -/
inductive ReachOps : Hotel → Prop where
  | init : ReachOps emptyHotel
  | add_room (h : Hotel) (r : Room) (h' : Hotel) :
      ReachOps h → add_room h r = Except.ok h' → ReachOps h'
  | remove_room (h : Hotel) (rn : String) :
      ReachOps h → ReachOps (remove_room h rn)
  | register_guest (h : Hotel) (g : Guest) (h' : Hotel) :
      ReachOps h → register_guest h g = Except.ok h' → ReachOps h'
  | create_booking (h : Hotel) (nid gid rn : String) (ci co : Int)
      (b : Booking) (h' : Hotel) :
      ReachOps h → create_booking h nid gid rn ci co = Except.ok (b, h') →
      ReachOps h'
  | cancel_booking (h : Hotel) (bid : String) (h' : Hotel) :
      ReachOps h → cancel_booking h bid = Except.ok h' → ReachOps h'
  | check_in (h : Hotel) (bid : String) (today : Int) (h' : Hotel) :
      ReachOps h → check_in h bid today = Except.ok h' → ReachOps h'
  | check_out (h : Hotel) (bid : String) (today : Int)
      (pid pd tid : String) (t : ℚ) (h' : Hotel) :
      ReachOps h → check_out h bid today pid pd tid = Except.ok (t, h') →
      ReachOps h'
  | process_payment (h : Hotel) (pid bid : String) (amount : ℚ)
      (method pd tid : String) :
      ReachOps h → ReachOps (process_payment h pid bid amount method pd tid).2

/-- States reachable when, in addition, startup may replay an arbitrary
parsed snapshot file (hotel.py:39 calls `load_json` unconditionally on
whatever `hotel_state.json` holds). -/
inductive Reach : Hotel → Prop where
  | init : Reach emptyHotel
  | add_room (h : Hotel) (r : Room) (h' : Hotel) :
      Reach h → add_room h r = Except.ok h' → Reach h'
  | remove_room (h : Hotel) (rn : String) :
      Reach h → Reach (remove_room h rn)
  | register_guest (h : Hotel) (g : Guest) (h' : Hotel) :
      Reach h → register_guest h g = Except.ok h' → Reach h'
  | create_booking (h : Hotel) (nid gid rn : String) (ci co : Int)
      (b : Booking) (h' : Hotel) :
      Reach h → create_booking h nid gid rn ci co = Except.ok (b, h') →
      Reach h'
  | cancel_booking (h : Hotel) (bid : String) (h' : Hotel) :
      Reach h → cancel_booking h bid = Except.ok h' → Reach h'
  | check_in (h : Hotel) (bid : String) (today : Int) (h' : Hotel) :
      Reach h → check_in h bid today = Except.ok h' → Reach h'
  | check_out (h : Hotel) (bid : String) (today : Int)
      (pid pd tid : String) (t : ℚ) (h' : Hotel) :
      Reach h → check_out h bid today pid pd tid = Except.ok (t, h') →
      Reach h'
  | process_payment (h : Hotel) (pid bid : String) (amount : ℚ)
      (method pd tid : String) :
      Reach h → Reach (process_payment h pid bid amount method pd tid).2
  | load (h : Hotel) (rooms : List Room) (guests : List Guest)
      (bookings : List Booking) (payments : List Payment) :
      Reach h → Reach (load_snapshot h rooms guests bookings payments)

/-- No two distinct active bookings of one room overlap (spec §3
ownership invariant, claim C5). -/
def noDoubleBooking (h : Hotel) : Prop :=
  ∀ b1 ∈ h.bookings, ∀ b2 ∈ h.bookings, b1 ≠ b2 →
    b1.room_number = b2.room_number → activeB b1 = true → activeB b2 = true →
    ¬ (b1.check_in_date < b2.check_out_date ∧
        b2.check_in_date < b1.check_out_date)

instance (h : Hotel) : Decidable (noDoubleBooking h) := by
  unfold noDoubleBooking; infer_instance

/-- Every stored booking leaves after it arrives (spec §3 invariant,
claim C6). -/
def datesWellFormed (h : Hotel) : Prop :=
  ∀ b ∈ h.bookings, b.check_in_date < b.check_out_date

instance (h : Hotel) : Decidable (datesWellFormed h) := by
  unfold datesWellFormed; infer_instance

/-- The `bookings` table's PRIMARY KEY constraint: no two rows share a
booking id. -/
def uniqueBookingIds (h : Hotel) : Prop :=
  (h.bookings.map Booking.booking_id).Nodup

instance (h : Hotel) : Decidable (uniqueBookingIds h) := by
  unfold uniqueBookingIds; infer_instance

/-- The status edges the spec's state machine allows (besides staying
put): booked → checked_in → checked_out, and booked/checked_in →
cancelled. -/
def allowedTransition (s s' : BStatus) : Prop :=
  s = s' ∨
    (s = BStatus.booked ∧ s' = BStatus.checked_in) ∨
    (s = BStatus.checked_in ∧ s' = BStatus.checked_out) ∨
    ((s = BStatus.booked ∨ s = BStatus.checked_in) ∧
      s' = BStatus.cancelled)

/-- Row-wise evolution of a stored booking: every column is preserved
except the status, which moves along an allowed edge or stays. -/
def bookingEvolves (b b' : Booking) : Prop :=
  b'.booking_id = b.booking_id ∧ b'.guest_id = b.guest_id ∧
  b'.room_number = b.room_number ∧ b'.check_in_date = b.check_in_date ∧
  b'.check_out_date = b.check_out_date ∧
  allowedTransition b.status b'.status

/-- C1: the availability check (`check_room_availability` /
`_room_has_conflict`, hotel.py:227, 266) returns true iff some stored
booking of the given room has a status outside {cancelled, checked_out}
and overlaps the candidate range under half-open semantics
(`existing.check_in < candidate.check_out` and
`candidate.check_in < existing.check_out`); for a room with no stored
bookings it returns false, and a booking ending on day D never overlaps
a candidate starting on day D. -/
theorem availability_iff_active_overlap (h : Hotel) (rn : String)
    (ci co : Int) :
    (check_room_availability h rn ci co = true ↔
      ∃ b ∈ h.bookings, b.room_number = rn ∧
        b.status ≠ BStatus.cancelled ∧ b.status ≠ BStatus.checked_out ∧
        b.check_in_date < co ∧ ci < b.check_out_date) ∧
    ((∀ b ∈ h.bookings, b.room_number ≠ rn) →
      check_room_availability h rn ci co = false) ∧
    (∀ b : Booking, b.check_out_date = ci →
      _overlaps ci co b.check_in_date b.check_out_date = false) := by
  refine ⟨?_, ?_, ?_⟩
  · unfold check_room_availability _room_has_conflict _overlaps
    simp only [List.any_eq_true, List.mem_filter, Bool.and_eq_true,
      Bool.not_eq_true', Bool.or_eq_false_iff, beq_eq_false_iff_ne,
      decide_eq_true_eq, beq_iff_eq]
    constructor
    · rintro ⟨b, ⟨hb, hrn⟩, ⟨hc1, hc2⟩, hlt1, hlt2⟩
      exact ⟨b, hb, hrn, hc1, hc2, hlt2, hlt1⟩
    · rintro ⟨b, hb, hrn, hc1, hc2, hlt2, hlt1⟩
      exact ⟨b, ⟨hb, hrn⟩, ⟨hc1, hc2⟩, hlt1, hlt2⟩
  · intro hnone
    unfold check_room_availability _room_has_conflict
    have hnil : h.bookings.filter (fun b => b.room_number == rn) = [] := by
      rw [List.filter_eq_nil_iff]
      intro b hb
      simp only [beq_iff_eq]
      exact hnone b hb
    rw [hnil]
    rfl
  · intro b hco
    unfold _overlaps
    simp [hco]

/-- C1 witness: a store whose only booking (ending on day 5) is for room
"101" reports no conflict for room "202" on days [3, 9). -/
theorem availability_iff_active_overlap_w :
    check_room_availability ⟨[], [], [⟨"b1", "g1", "101", 0, 5,
      BStatus.booked⟩], []⟩ "202" 3 9 = false :=
  (availability_iff_active_overlap _ "202" 3 9).2.1 (by decide)

/-- C2: `create_booking` (hotel.py:283) fails with a validation error iff
`check_out ≤ check_in`, or the guest is unknown, or the room is unknown,
or a conflicting booking exists (the hypothesis models the freshness of
the generated uuid); on failure nothing is written (every raise in the
source precedes the INSERT, so the error value carries no new state), and
on success exactly one new booking is appended, carrying the fresh id —
distinct from every stored id — and status `booked`, with rooms, guests
and payments untouched. -/
theorem create_booking_spec (h : Hotel) (nid gid rn : String) (ci co : Int)
    (hfresh : ∀ b ∈ h.bookings, b.booking_id ≠ nid) :
    ((∃ e, create_booking h nid gid rn ci co = Except.error e) ↔
      (co ≤ ci ∨ find_guest h gid = none ∨ find_room h rn = none ∨
        _room_has_conflict h rn ci co = true)) ∧
    (∀ b h', create_booking h nid gid rn ci co = Except.ok (b, h') →
      b = ⟨nid, gid, rn, ci, co, BStatus.booked⟩ ∧
      h'.bookings = h.bookings ++ [b] ∧
      h'.rooms = h.rooms ∧ h'.guests = h.guests ∧ h'.payments = h.payments ∧
      ∀ b' ∈ h.bookings, b'.booking_id ≠ b.booking_id) := by
  have hdup : (h.bookings.any (fun x => x.booking_id == nid)) = false := by
    rw [List.any_eq_false]
    intro x hx
    simp only [beq_iff_eq]
    exact hfresh x hx
  by_cases h1 : co ≤ ci
  · have hval : create_booking h nid gid rn ci co =
        Except.error HotelErr.invalidDates := by
      simp [create_booking, h1]
    refine ⟨⟨fun _ => Or.inl h1, fun _ => ⟨_, hval⟩⟩, ?_⟩
    intro b h' hok
    rw [hval] at hok
    simp at hok
  · cases hg : find_guest h gid with
    | none =>
      have hval : create_booking h nid gid rn ci co =
          Except.error HotelErr.guestNotFound := by
        simp [create_booking, h1, hg]
      refine ⟨⟨fun _ => Or.inr (Or.inl rfl), fun _ => ⟨_, hval⟩⟩, ?_⟩
      intro b h' hok
      rw [hval] at hok
      simp at hok
    | some g =>
      cases hr : find_room h rn with
      | none =>
        have hval : create_booking h nid gid rn ci co =
            Except.error HotelErr.roomNotFound := by
          simp [create_booking, h1, hg, hr]
        refine ⟨⟨fun _ => Or.inr (Or.inr (Or.inl rfl)), fun _ => ⟨_, hval⟩⟩, ?_⟩
        intro b h' hok
        rw [hval] at hok
        simp at hok
      | some room =>
        by_cases hc : _room_has_conflict h rn ci co = true
        · have hval : create_booking h nid gid rn ci co =
              Except.error HotelErr.conflict := by
            simp [create_booking, h1, hg, hr, hc]
          refine ⟨⟨fun _ => Or.inr (Or.inr (Or.inr hc)), fun _ => ⟨_, hval⟩⟩, ?_⟩
          intro b h' hok
          rw [hval] at hok
          simp at hok
        · have hval : create_booking h nid gid rn ci co =
              Except.ok (⟨nid, gid, rn, ci, co, BStatus.booked⟩,
                { h with bookings :=
                    h.bookings ++ [⟨nid, gid, rn, ci, co, BStatus.booked⟩] }) := by
            simp [create_booking, h1, hg, hr, hc, hdup]
          constructor
          · constructor
            · rintro ⟨e, he⟩
              rw [hval] at he
              simp at he
            · rintro (hx | hx | hx | hx)
              · exact absurd hx h1
              · simp at hx
              · simp at hx
              · exact absurd hx hc
          · intro b h' hok
            rw [hval] at hok
            simp only [Except.ok.injEq, Prod.mk.injEq] at hok
            obtain ⟨hb, hh⟩ := hok
            subst hb
            subst hh
            refine ⟨rfl, rfl, rfl, rfl, rfl, ?_⟩
            intro b' hb'
            exact hfresh b' hb'

/-- C2 witness: on the empty store a booking request fails (the guest is
unknown). -/
theorem create_booking_spec_w :
    ∃ e, create_booking emptyHotel "b1" "g1" "101" 1 3 = Except.error e :=
  ((create_booking_spec emptyHotel "b1" "g1" "101" 1 3
    (by decide)).1).mpr (Or.inr (Or.inl (by decide)))

theorem bookingEvolves_refl (b : Booking) : bookingEvolves b b :=
  ⟨rfl, rfl, rfl, rfl, rfl, Or.inl rfl⟩

theorem found_id {h : Hotel} {bid : String} {b : Booking}
    (hf : find_booking h bid = some b) : (b.booking_id == bid) = true := by
  unfold find_booking at hf
  simpa using List.find?_some hf

theorem found_mem {h : Hotel} {bid : String} {b : Booking}
    (hf : find_booking h bid = some b) : b ∈ h.bookings := by
  unfold find_booking at hf
  exact List.mem_of_find?_eq_some hf

/-- With the PRIMARY KEY constraint, any stored row carrying the id of
the row `find_booking` returned is that row. -/
theorem found_unique {h : Hotel} {bid : String} {b x : Booking}
    (hu : uniqueBookingIds h) (hf : find_booking h bid = some b)
    (hx : x ∈ h.bookings) (hid : x.booking_id = bid) : x = b := by
  unfold uniqueBookingIds at hu
  exact List.inj_on_of_nodup_map hu hx (found_mem hf)
    (by rw [hid]; exact (beq_iff_eq.mp (found_id hf)).symm)

/-- A status UPDATE keyed on a unique booking id makes every stored row
evolve row-wise, provided the found row itself evolves. -/
theorem forall₂_evolves_map {h : Hotel} {bid : String} {b : Booking}
    (hu : uniqueBookingIds h) (hf : find_booking h bid = some b)
    {f : Booking → Booking}
    (hother : ∀ x, x.booking_id ≠ bid → f x = x)
    (hb : bookingEvolves b (f b)) :
    List.Forall₂ bookingEvolves h.bookings (h.bookings.map f) := by
  rw [List.forall₂_map_right_iff, List.forall₂_same]
  intro x hx
  by_cases hxid : x.booking_id = bid
  · rw [found_unique hu hf hx hxid]
    exact hb
  · rw [hother x hxid]
    exact bookingEvolves_refl x

/-- C3: under the PRIMARY KEY constraint on booking ids, every successful
`cancel_booking`, `check_in` or `check_out` (hotel.py:310, 347, 373) only
moves stored statuses along booked → checked_in → checked_out or
{booked, checked_in} → cancelled, keeping every other column; and each of
the three, invoked on a booking whose status does not permit the
transition, raises (in the source the raise precedes every write, so the
store is untouched). -/
theorem status_machine (h : Hotel) (bid : String) (today : Int)
    (pid pd tid : String) (hu : uniqueBookingIds h) :
    (∀ h', cancel_booking h bid = Except.ok h' →
      List.Forall₂ bookingEvolves h.bookings h'.bookings) ∧
    (∀ h', check_in h bid today = Except.ok h' →
      List.Forall₂ bookingEvolves h.bookings h'.bookings) ∧
    (∀ t h', check_out h bid today pid pd tid = Except.ok (t, h') →
      List.Forall₂ bookingEvolves h.bookings h'.bookings) ∧
    (∀ b, find_booking h bid = some b →
      (b.status ≠ BStatus.booked →
        ∃ e, check_in h bid today = Except.error e) ∧
      (b.status ≠ BStatus.checked_in →
        ∃ e, check_out h bid today pid pd tid = Except.error e) ∧
      ((b.status = BStatus.cancelled ∨ b.status = BStatus.checked_out) →
        ∃ e, cancel_booking h bid = Except.error e)) := by
  refine ⟨?_, ?_, ?_, ?_⟩
  · intro h' hok
    unfold cancel_booking at hok
    cases hf : find_booking h bid with
    | none => rw [hf] at hok; simp at hok
    | some b =>
      rw [hf] at hok
      dsimp only at hok
      by_cases hterm :
          (b.status == BStatus.cancelled || b.status == BStatus.checked_out)
            = true
      · rw [if_pos hterm] at hok; simp at hok
      · rw [if_neg hterm] at hok
        simp only [Except.ok.injEq] at hok
        rw [← hok]
        refine forall₂_evolves_map hu hf ?_ ?_
        · intro x hne
          simp [beq_eq_false_iff_ne.mpr hne]
        · rw [if_pos (found_id hf)]
          refine ⟨rfl, rfl, rfl, rfl, rfl, ?_⟩
          have hterm' : ¬ (b.status = BStatus.cancelled ∨
              b.status = BStatus.checked_out) := by
            simpa using hterm
          cases hbs : b.status with
          | booked =>
            exact Or.inr (Or.inr (Or.inr ⟨Or.inl rfl, rfl⟩))
          | checked_in =>
            exact Or.inr (Or.inr (Or.inr ⟨Or.inr rfl, rfl⟩))
          | checked_out =>
            exact absurd (Or.inr hbs) hterm'
          | cancelled =>
            exact absurd (Or.inl hbs) hterm'
  · intro h' hok
    unfold check_in at hok
    cases hf : find_booking h bid with
    | none => rw [hf] at hok; simp at hok
    | some b =>
      rw [hf] at hok
      dsimp only at hok
      cases hs : (b.status == BStatus.booked) with
      | false => rw [hs] at hok; simp at hok
      | true =>
        rw [hs] at hok
        cases hd : (b.check_in_date == today) with
        | false => rw [hd] at hok; simp at hok
        | true =>
          rw [hd] at hok
          rw [if_neg (by decide), if_neg (by decide)] at hok
          simp only [Except.ok.injEq] at hok
          rw [← hok]
          refine forall₂_evolves_map hu hf ?_ ?_
          · intro x hne
            simp [beq_eq_false_iff_ne.mpr hne]
          · rw [if_pos (found_id hf)]
            exact ⟨rfl, rfl, rfl, rfl, rfl,
              Or.inr (Or.inl ⟨beq_iff_eq.mp hs, rfl⟩)⟩
  · intro t h' hok
    unfold check_out at hok
    cases hf : find_booking h bid with
    | none => rw [hf] at hok; simp at hok
    | some b =>
      rw [hf] at hok
      dsimp only at hok
      cases hs : (b.status == BStatus.checked_in) with
      | false => rw [hs] at hok; simp at hok
      | true =>
        rw [hs] at hok
        cases hd : (b.check_out_date == today) with
        | false => rw [hd] at hok; simp at hok
        | true =>
          rw [hd] at hok
          rw [if_neg (by decide), if_neg (by decide)] at hok
          cases hr : find_room h b.room_number with
          | none => rw [hr] at hok; simp at hok
          | some room =>
            rw [hr] at hok
            simp only [process_payment, Except.ok.injEq,
              Prod.mk.injEq] at hok
            rw [← hok.2]
            refine forall₂_evolves_map hu hf ?_ ?_
            · intro x hne
              simp [beq_eq_false_iff_ne.mpr hne]
            · rw [if_pos (found_id hf)]
              exact ⟨rfl, rfl, rfl, rfl, rfl,
                Or.inr (Or.inr (Or.inl ⟨beq_iff_eq.mp hs, rfl⟩))⟩
  · intro b hf
    refine ⟨?_, ?_, ?_⟩
    · intro hne
      exact ⟨HotelErr.wrongStatus,
        by simp [check_in, hf, beq_eq_false_iff_ne.mpr hne]⟩
    · intro hne
      exact ⟨HotelErr.wrongStatus,
        by simp [check_out, hf, beq_eq_false_iff_ne.mpr hne]⟩
    · intro hterm
      refine ⟨HotelErr.wrongStatus, ?_⟩
      rcases hterm with hx | hx <;> simp [cancel_booking, hf, hx]

/-- C3 witness: cancelling an already-cancelled booking is rejected. -/
theorem status_machine_w :
    ∃ e, cancel_booking ⟨[], [], [⟨"b1", "g1", "101", 0, 2,
      BStatus.cancelled⟩], []⟩ "b1" = Except.error e :=
  ((status_machine _ "b1" 0 "p" "d" "t" (by decide)).2.2.2
    ⟨"b1", "g1", "101", 0, 2, BStatus.cancelled⟩ (by decide)).2.2
    (Or.inl rfl)

/-- C4: for a booking in status `checked_in` whose referenced room
exists, `check_out` (hotel.py:373) called with today equal to the
check-out date succeeds, returns exactly
`(check_out_date - check_in_date) * price_per_night`, and records a
payment of that amount for the booking. -/
theorem check_out_total (h : Hotel) (bid pid pd tid : String)
    (b : Booking) (room : Room) (today : Int)
    (hf : find_booking h bid = some b)
    (hs : b.status = BStatus.checked_in)
    (htoday : today = b.check_out_date)
    (hr : find_room h b.room_number = some room) :
    (∃ th, check_out h bid today pid pd tid = Except.ok th) ∧
    (∀ t h', check_out h bid today pid pd tid = Except.ok (t, h') →
      t = ((b.check_out_date - b.check_in_date : Int) : ℚ) *
        room.price_per_night ∧
      h'.payments = h.payments ++
        [⟨pid, bid, t, pd, "card", "completed", tid⟩]) := by
  subst htoday
  have hval : check_out h bid b.check_out_date pid pd tid =
      Except.ok
        (((b.check_out_date - b.check_in_date : Int) : ℚ) *
          room.price_per_night,
          { rooms := h.rooms.map (fun r =>
              if r.room_number == b.room_number then
                { r with is_occupied := false }
              else r),
            guests := h.guests,
            bookings := h.bookings.map (fun x =>
              if x.booking_id == bid then
                { x with status := BStatus.checked_out }
              else x),
            payments := h.payments ++
              [⟨pid, bid,
                ((b.check_out_date - b.check_in_date : Int) : ℚ) *
                  room.price_per_night, pd, "card", "completed", tid⟩] }) := by
    simp [check_out, hf, hs, hr, process_payment]
  refine ⟨⟨_, hval⟩, ?_⟩
  intro t h' hok
  rw [hval] at hok
  simp only [Except.ok.injEq, Prod.mk.injEq] at hok
  obtain ⟨ht, hh⟩ := hok
  subst ht
  subst hh
  exact ⟨rfl, rfl⟩

/-- C4 witness: a 2-night stay at 30000 per night checks out for a total
of 60000, recorded as the payment amount. -/
theorem check_out_total_w :
    ∃ h', check_out ⟨[⟨"101", "single", 30000, true⟩], [],
      [⟨"b1", "g1", "101", 0, 2, BStatus.checked_in⟩], []⟩ "b1" 2
      "p" "d" "t" = Except.ok (60000, h') := by
  obtain ⟨⟨⟨t, h'⟩, hok⟩, hall⟩ := check_out_total
    ⟨[⟨"101", "single", 30000, true⟩], [],
      [⟨"b1", "g1", "101", 0, 2, BStatus.checked_in⟩], []⟩ "b1" "p" "d" "t"
    ⟨"b1", "g1", "101", 0, 2, BStatus.checked_in⟩
    ⟨"101", "single", 30000, true⟩ 2 (by decide) rfl rfl (by decide)
  obtain ⟨ht, _⟩ := hall t h' hok
  subst ht
  refine ⟨h', ?_⟩
  have hnum : (((2 : Int) - (0 : Int) : Int) : ℚ) *
      (30000 : ℚ) = (60000 : ℚ) := by norm_num
  rw [hnum] at hok
  exact hok

/-- The three store invariants only look at the bookings table. -/
theorem inv_bookings_congr {h h' : Hotel} (e : h'.bookings = h.bookings) :
    (uniqueBookingIds h → uniqueBookingIds h') ∧
    (datesWellFormed h → datesWellFormed h') ∧
    (noDoubleBooking h → noDoubleBooking h') := by
  unfold uniqueBookingIds datesWellFormed noDoubleBooking
  rw [e]
  exact ⟨id, id, id⟩

/-- A row-wise UPDATE that keeps ids, room and dates, and never turns an
inactive row active, preserves the three store invariants. -/
theorem inv_map {h h' : Hotel} {f : Booking → Booking}
    (e : h'.bookings = h.bookings.map f)
    (hid : ∀ x, (f x).booking_id = x.booking_id)
    (hroom : ∀ x, (f x).room_number = x.room_number)
    (hci : ∀ x, (f x).check_in_date = x.check_in_date)
    (hco : ∀ x, (f x).check_out_date = x.check_out_date)
    (hact : ∀ x ∈ h.bookings, activeB (f x) = true → activeB x = true) :
    (uniqueBookingIds h → uniqueBookingIds h') ∧
    (datesWellFormed h → datesWellFormed h') ∧
    (noDoubleBooking h → noDoubleBooking h') := by
  refine ⟨?_, ?_, ?_⟩
  · intro hu
    unfold uniqueBookingIds at hu ⊢
    rw [e, List.map_map]
    have hcomp : (Booking.booking_id ∘ f) = Booking.booking_id :=
      funext hid
    rw [hcomp]
    exact hu
  · intro hd
    unfold datesWellFormed at hd ⊢
    rw [e]
    intro b hb
    rcases List.mem_map.mp hb with ⟨a, ha, rfl⟩
    rw [hci, hco]
    exact hd a ha
  · intro hn
    unfold noDoubleBooking at hn ⊢
    rw [e]
    intro b1 hb1 b2 hb2 hne hroomEq ha1 ha2
    rcases List.mem_map.mp hb1 with ⟨a1, ha1m, rfl⟩
    rcases List.mem_map.mp hb2 with ⟨a2, ha2m, rfl⟩
    have hane : a1 ≠ a2 := by
      intro hEq
      exact hne (by rw [hEq])
    rw [hroom, hroom] at hroomEq
    rw [hci a1, hco a1, hci a2, hco a2]
    exact hn a1 ha1m a2 ha2m hane hroomEq (hact a1 ha1m ha1)
      (hact a2 ha2m ha2)

/-- Appending one fresh, date-valid booking that overlaps no stored
active booking of its room preserves the three store invariants. -/
theorem inv_append_create {h h' : Hotel} {nb : Booking}
    (e : h'.bookings = h.bookings ++ [nb])
    (hfresh : ∀ x ∈ h.bookings, x.booking_id ≠ nb.booking_id)
    (hdates : nb.check_in_date < nb.check_out_date)
    (hnc : ∀ x ∈ h.bookings, x.room_number = nb.room_number →
      activeB x = true →
      ¬ (nb.check_in_date < x.check_out_date ∧
          x.check_in_date < nb.check_out_date)) :
    (uniqueBookingIds h → uniqueBookingIds h') ∧
    (datesWellFormed h → datesWellFormed h') ∧
    (noDoubleBooking h → noDoubleBooking h') := by
  refine ⟨?_, ?_, ?_⟩
  · intro hu
    unfold uniqueBookingIds at hu ⊢
    rw [e, List.map_append, List.nodup_append]
    refine ⟨hu, by simp, ?_⟩
    intro a ha hmem
    rcases List.mem_map.mp ha with ⟨x, hx, rfl⟩
    simp only [List.map_cons, List.map_nil, List.mem_singleton] at hmem
    exact hfresh x hx hmem
  · intro hd
    unfold datesWellFormed at hd ⊢
    rw [e]
    intro b hb
    rcases List.mem_append.mp hb with hb | hb
    · exact hd b hb
    · rw [List.mem_singleton.mp hb]
      exact hdates
  · intro hn
    unfold noDoubleBooking at hn ⊢
    rw [e]
    intro b1 hb1 b2 hb2 hne hroomEq ha1 ha2
    rcases List.mem_append.mp hb1 with hb1 | hb1 <;>
      rcases List.mem_append.mp hb2 with hb2 | hb2
    · exact hn b1 hb1 b2 hb2 hne hroomEq ha1 ha2
    · rw [List.mem_singleton.mp hb2] at hroomEq ⊢
      intro hover
      exact hnc b1 hb1 hroomEq ha1 ⟨hover.2, hover.1⟩
    · rw [List.mem_singleton.mp hb1] at hroomEq ⊢
      intro hover
      exact hnc b2 hb2 hroomEq.symm ha2 ⟨hover.1, hover.2⟩
    · rw [List.mem_singleton.mp hb1, List.mem_singleton.mp hb2] at hne
      exact absurd rfl hne

/-- Every state reachable through the API operations alone satisfies the
PRIMARY KEY constraint on booking ids, has only date-valid bookings, and
never double-books a room. -/
theorem reachOps_invariants {h : Hotel} (hr : ReachOps h) :
    uniqueBookingIds h ∧ datesWellFormed h ∧ noDoubleBooking h := by
  induction hr with
  | init =>
    refine ⟨by simp [uniqueBookingIds, emptyHotel], ?_, ?_⟩
    · intro b hb
      simp [emptyHotel] at hb
    · intro b1 hb1
      simp [emptyHotel] at hb1
  | add_room h r h' _ hok ih =>
    have e : h'.bookings = h.bookings := by
      unfold add_room at hok
      by_cases hc : (h.rooms.any (fun x => x.room_number == r.room_number))
          = true
      · rw [if_pos hc] at hok; simp at hok
      · rw [if_neg hc] at hok
        simp only [Except.ok.injEq] at hok
        rw [← hok]
    obtain ⟨i1, i2, i3⟩ := inv_bookings_congr e
    exact ⟨i1 ih.1, i2 ih.2.1, i3 ih.2.2⟩
  | remove_room h rn _ ih =>
    obtain ⟨i1, i2, i3⟩ := @inv_bookings_congr h (remove_room h rn) rfl
    exact ⟨i1 ih.1, i2 ih.2.1, i3 ih.2.2⟩
  | register_guest h g h' _ hok ih =>
    have e : h'.bookings = h.bookings := by
      unfold register_guest at hok
      by_cases hc : (h.guests.any (fun x => x.guest_id == g.guest_id))
          = true
      · rw [if_pos hc] at hok; simp at hok
      · rw [if_neg hc] at hok
        simp only [Except.ok.injEq] at hok
        rw [← hok]
    obtain ⟨i1, i2, i3⟩ := inv_bookings_congr e
    exact ⟨i1 ih.1, i2 ih.2.1, i3 ih.2.2⟩
  | process_payment h pid bid amount method pd tid _ ih =>
    obtain ⟨i1, i2, i3⟩ := @inv_bookings_congr h
      (process_payment h pid bid amount method pd tid).2 rfl
    exact ⟨i1 ih.1, i2 ih.2.1, i3 ih.2.2⟩
  | create_booking h nid gid rn ci co b h' _ hok ih =>
    unfold create_booking at hok
    by_cases h1 : co ≤ ci
    · rw [if_pos h1] at hok; simp at hok
    · rw [if_neg h1] at hok
      cases hg : find_guest h gid with
      | none => rw [hg] at hok; simp at hok
      | some g =>
        rw [hg] at hok
        dsimp only at hok
        cases hrm : find_room h rn with
        | none => rw [hrm] at hok; simp at hok
        | some room =>
          rw [hrm] at hok
          dsimp only at hok
          by_cases hc : _room_has_conflict h rn ci co = true
          · rw [if_pos hc] at hok; simp at hok
          · rw [if_neg hc] at hok
            by_cases hdup :
                (h.bookings.any (fun x => x.booking_id == nid)) = true
            · rw [if_pos hdup] at hok; simp at hok
            · rw [if_neg hdup] at hok
              simp only [Except.ok.injEq, Prod.mk.injEq] at hok
              obtain ⟨-, hh⟩ := hok
              have e : h'.bookings = h.bookings ++
                  [⟨nid, gid, rn, ci, co, BStatus.booked⟩] := by
                rw [← hh]
              have hfresh : ∀ x ∈ h.bookings, x.booking_id ≠ nid := by
                rw [Bool.not_eq_true, List.any_eq_false] at hdup
                intro x hx
                have := hdup x hx
                simpa using this
              have hnc : ∀ x ∈ h.bookings, x.room_number = rn →
                  activeB x = true →
                  ¬ (ci < x.check_out_date ∧ x.check_in_date < co) := by
                intro x hx hxr hxa hover
                apply hc
                unfold _room_has_conflict
                rw [List.any_eq_true]
                refine ⟨x, List.mem_filter.mpr ⟨hx, by simp [hxr]⟩, ?_⟩
                rw [Bool.and_eq_true]
                constructor
                · exact hxa
                · unfold _overlaps
                  rw [Bool.and_eq_true]
                  exact ⟨decide_eq_true hover.1, decide_eq_true hover.2⟩
              obtain ⟨i1, i2, i3⟩ := inv_append_create e hfresh
                (lt_of_not_le h1) hnc
              exact ⟨i1 ih.1, i2 ih.2.1, i3 ih.2.2⟩
  | cancel_booking h bid h' _ hok ih =>
    obtain ⟨hu, hd, hn⟩ := ih
    unfold cancel_booking at hok
    cases hf : find_booking h bid with
    | none => rw [hf] at hok; simp at hok
    | some b =>
      rw [hf] at hok
      dsimp only at hok
      by_cases hterm :
          (b.status == BStatus.cancelled || b.status == BStatus.checked_out)
            = true
      · rw [if_pos hterm] at hok; simp at hok
      · rw [if_neg hterm] at hok
        simp only [Except.ok.injEq] at hok
        have e : h'.bookings = h.bookings.map (fun x =>
            if x.booking_id == bid then
              { x with status := BStatus.cancelled }
            else x) := by
          rw [← hok]
        obtain ⟨i1, i2, i3⟩ := inv_map e
          (by intro x; by_cases hx : (x.booking_id == bid) = true <;>
            simp [hx])
          (by intro x; by_cases hx : (x.booking_id == bid) = true <;>
            simp [hx])
          (by intro x; by_cases hx : (x.booking_id == bid) = true <;>
            simp [hx])
          (by intro x; by_cases hx : (x.booking_id == bid) = true <;>
            simp [hx])
          (by
            intro x _ hax
            by_cases hx : (x.booking_id == bid) = true
            · rw [if_pos hx] at hax
              simp [activeB] at hax
            · rw [if_neg hx] at hax
              exact hax)
        exact ⟨i1 hu, i2 hd, i3 hn⟩
  | check_in h bid today h' _ hok ih =>
    obtain ⟨hu, hd, hn⟩ := ih
    unfold check_in at hok
    cases hf : find_booking h bid with
    | none => rw [hf] at hok; simp at hok
    | some b =>
      rw [hf] at hok
      dsimp only at hok
      cases hs : (b.status == BStatus.booked) with
      | false => rw [hs] at hok; simp at hok
      | true =>
        rw [hs] at hok
        cases hdt : (b.check_in_date == today) with
        | false => rw [hdt] at hok; simp at hok
        | true =>
          rw [hdt] at hok
          rw [if_neg (by decide), if_neg (by decide)] at hok
          simp only [Except.ok.injEq] at hok
          have e : h'.bookings = h.bookings.map (fun x =>
              if x.booking_id == bid then
                { x with status := BStatus.checked_in }
              else x) := by
            rw [← hok]
          obtain ⟨i1, i2, i3⟩ := inv_map e
            (by intro x; by_cases hx : (x.booking_id == bid) = true <;>
              simp [hx])
            (by intro x; by_cases hx : (x.booking_id == bid) = true <;>
              simp [hx])
            (by intro x; by_cases hx : (x.booking_id == bid) = true <;>
              simp [hx])
            (by intro x; by_cases hx : (x.booking_id == bid) = true <;>
              simp [hx])
            (by
              intro x hx hax
              by_cases hxid : (x.booking_id == bid) = true
              · have hxb : x = b :=
                  found_unique hu hf hx (beq_iff_eq.mp hxid)
                rw [hxb]
                simp [activeB, beq_iff_eq.mp hs]
              · rw [if_neg hxid] at hax
                exact hax)
          exact ⟨i1 hu, i2 hd, i3 hn⟩
  | check_out h bid today pid pd tid t h' _ hok ih =>
    obtain ⟨hu, hd, hn⟩ := ih
    unfold check_out at hok
    cases hf : find_booking h bid with
    | none => rw [hf] at hok; simp at hok
    | some b =>
      rw [hf] at hok
      dsimp only at hok
      cases hs : (b.status == BStatus.checked_in) with
      | false => rw [hs] at hok; simp at hok
      | true =>
        rw [hs] at hok
        cases hdt : (b.check_out_date == today) with
        | false => rw [hdt] at hok; simp at hok
        | true =>
          rw [hdt] at hok
          rw [if_neg (by decide), if_neg (by decide)] at hok
          cases hrm : find_room h b.room_number with
          | none => rw [hrm] at hok; simp at hok
          | some room =>
            rw [hrm] at hok
            simp only [process_payment, Except.ok.injEq,
              Prod.mk.injEq] at hok
            have e : h'.bookings = h.bookings.map (fun x =>
                if x.booking_id == bid then
                  { x with status := BStatus.checked_out }
                else x) := by
              rw [← hok.2]
            obtain ⟨i1, i2, i3⟩ := inv_map e
              (by intro x; by_cases hx : (x.booking_id == bid) = true <;>
                simp [hx])
              (by intro x; by_cases hx : (x.booking_id == bid) = true <;>
                simp [hx])
              (by intro x; by_cases hx : (x.booking_id == bid) = true <;>
                simp [hx])
              (by intro x; by_cases hx : (x.booking_id == bid) = true <;>
                simp [hx])
              (by
                intro x _ hax
                by_cases hx : (x.booking_id == bid) = true
                · rw [if_pos hx] at hax
                  simp [activeB] at hax
                · rw [if_neg hx] at hax
                  exact hax)
            exact ⟨i1 hu, i2 hd, i3 hn⟩

/-- C5 (amended): in every store state reachable through the API
operations alone — without snapshot replay — no two distinct active
bookings of one room have overlapping half-open intervals; every
operation preserves this.  (Replaying an untrusted snapshot can break
it: see the counterexample.) -/
theorem no_double_booking_ops (h : Hotel) (hr : ReachOps h) :
    noDoubleBooking h :=
  (reachOps_invariants hr).2.2

/-- C5 witness: the store reached by add_room, register_guest and
create_booking holds no overlapping pair of active bookings. -/
theorem no_double_booking_ops_w :
    noDoubleBooking ⟨[⟨"101", "single", 12000, false⟩],
      [⟨"g1", "Alice", none, none⟩],
      [⟨"b1", "g1", "101", 0, 2, BStatus.booked⟩], []⟩ :=
  no_double_booking_ops _
    (ReachOps.create_booking _ "b1" "g1" "101" 0 2 _ _
      (ReachOps.register_guest _ ⟨"g1", "Alice", none, none⟩ _
        (ReachOps.add_room emptyHotel ⟨"101", "single", 12000, false⟩ _
          ReachOps.init rfl) rfl) rfl)

/-- C5 counterexample: `load_json` (hotel.py:88-94) replays snapshot
bookings through `_insert_booking_raw`, which performs no conflict
check, so startup replay of a snapshot holding two overlapping active
bookings for room "101" reaches a state that double-books the room —
refuting the claim for states reached via snapshot replay. -/
theorem snapshot_double_booking :
    Reach (load_snapshot emptyHotel [] []
      [⟨"b1", "g1", "101", 0, 3, BStatus.booked⟩,
        ⟨"b2", "g2", "101", 1, 4, BStatus.booked⟩] []) ∧
    ¬ noDoubleBooking (load_snapshot emptyHotel [] []
      [⟨"b1", "g1", "101", 0, 3, BStatus.booked⟩,
        ⟨"b2", "g2", "101", 1, 4, BStatus.booked⟩] []) :=
  ⟨Reach.load _ _ _ _ _ Reach.init, by decide⟩

/-- C6 (amended): in every store state reachable through the API
operations alone — without snapshot replay — every stored booking
satisfies check_out_date > check_in_date; every operation preserves
this.  (Replaying an untrusted snapshot can break it: see the
counterexample.) -/
theorem dates_well_formed_ops (h : Hotel) (hr : ReachOps h) :
    datesWellFormed h :=
  (reachOps_invariants hr).2.1

/-- C6 witness: the store reached by add_room, register_guest and
create_booking only holds date-valid bookings. -/
theorem dates_well_formed_ops_w :
    datesWellFormed ⟨[⟨"101", "single", 12000, false⟩],
      [⟨"g1", "Alice", none, none⟩],
      [⟨"b1", "g1", "101", 0, 2, BStatus.booked⟩], []⟩ :=
  dates_well_formed_ops _
    (ReachOps.create_booking _ "b1" "g1" "101" 0 2 _ _
      (ReachOps.register_guest _ ⟨"g1", "Alice", none, none⟩ _
        (ReachOps.add_room emptyHotel ⟨"101", "single", 12000, false⟩ _
          ReachOps.init rfl) rfl) rfl)

/-- C6 counterexample: `_insert_booking_raw` (hotel.py:103) validates no
dates (`Booking.from_dict` never calls `validate_dates`), so startup
replay of a snapshot holding a booking with check_out_date 2 before
check_in_date 5 reaches a state with a date-invalid stored booking —
refuting the claim for states reached via snapshot replay. -/
theorem snapshot_invalid_dates :
    Reach (load_snapshot emptyHotel [] []
      [⟨"b1", "g1", "101", 5, 2, BStatus.booked⟩] []) ∧
    ¬ datesWellFormed (load_snapshot emptyHotel [] []
      [⟨"b1", "g1", "101", 5, 2, BStatus.booked⟩] []) :=
  ⟨Reach.load _ _ _ _ _ Reach.init, by decide⟩

/-- A status UPDATE keyed on the booking id leaves the updated row where
`find_booking` finds it, with only its status changed. -/
theorem find_booking_after_status_map {h : Hotel} {bid : String}
    {b : Booking} (hf : find_booking h bid = some b) (s : BStatus) :
    ((h.bookings.map (fun x => if x.booking_id == bid then
        { x with status := s } else x)).find?
      (fun x => x.booking_id == bid)) = some { b with status := s } := by
  have hfb : (b.booking_id == bid) = true := found_id hf
  have hf' : h.bookings.find? (fun x => x.booking_id == bid) = some b := hf
  rw [List.find?_map]
  have hpf : ((fun x : Booking => x.booking_id == bid) ∘ (fun x =>
      if x.booking_id == bid then { x with status := s } else x)) =
      (fun x : Booking => x.booking_id == bid) := by
    funext x
    simp only [Function.comp_apply]
    by_cases hx : (x.booking_id == bid) = true
    · rw [if_pos hx]
    · rw [if_neg hx]
  rw [hpf, hf']
  simp only [Option.map_some']
  rw [if_pos hfb]

/-- C7: for a booking in status `booked`, `check_in` (hotel.py:347) on
the booking's check-in date succeeds, marks the booking `checked_in` and
sets `is_occupied` to true on the referenced room row, leaving every
other room row as it was; `check_in` on any other date is rejected with
the date-mismatch error, which in the source is raised before any
UPDATE, so room occupancy (and everything else) is untouched. -/
theorem check_in_occupancy (h : Hotel) (bid : String) (today : Int)
    (b : Booking) (hf : find_booking h bid = some b)
    (hs : b.status = BStatus.booked) :
    (∃ h', check_in h bid b.check_in_date = Except.ok h' ∧
      h'.rooms = h.rooms.map (fun r =>
        if r.room_number == b.room_number then
          { r with is_occupied := true }
        else r) ∧
      (∀ r ∈ h'.rooms, r.room_number = b.room_number →
        r.is_occupied = true) ∧
      find_booking h' bid = some { b with status := BStatus.checked_in }) ∧
    (today ≠ b.check_in_date →
      check_in h bid today = Except.error HotelErr.dateMismatch) := by
  constructor
  · have hval : check_in h bid b.check_in_date = Except.ok
        { rooms := h.rooms.map (fun r =>
            if r.room_number == b.room_number then
              { r with is_occupied := true }
            else r),
          guests := h.guests,
          bookings := h.bookings.map (fun x =>
            if x.booking_id == bid then
              { x with status := BStatus.checked_in }
            else x),
          payments := h.payments } := by
      simp [check_in, hf, hs]
    refine ⟨_, hval, rfl, ?_, ?_⟩
    · intro r hr hrn
      rcases List.mem_map.mp hr with ⟨a, ha, rfl⟩
      by_cases hx : (a.room_number == b.room_number) = true
      · rw [if_pos hx]
      · rw [if_neg hx] at hrn
        exact absurd (beq_iff_eq.mpr hrn) hx
    · exact find_booking_after_status_map hf BStatus.checked_in
  · intro hne
    have hd : (b.check_in_date == today) = false :=
      beq_eq_false_iff_ne.mpr (Ne.symm hne)
    simp [check_in, hf, hs, hd]

/-- C7 witness: checking in on day 0 a booking whose check-in date is
day 1 is rejected with the date-mismatch error. -/
theorem check_in_occupancy_w :
    check_in ⟨[⟨"101", "single", 12000, false⟩], [],
      [⟨"b1", "g1", "101", 1, 3, BStatus.booked⟩], []⟩ "b1" 0 =
      Except.error HotelErr.dateMismatch :=
  (check_in_occupancy ⟨[⟨"101", "single", 12000, false⟩], [],
    [⟨"b1", "g1", "101", 1, 3, BStatus.booked⟩], []⟩ "b1" 0
    ⟨"b1", "g1", "101", 1, 3, BStatus.booked⟩ rfl rfl).2 (by decide)

/-- C9: `check_in` (hotel.py:347) raises only for a missing booking, a
status other than `booked`, or a date mismatch; it never checks that the
referenced room exists, so with the room deleted it still succeeds,
marks the booking `checked_in` and leaves the rooms table unchanged (the
occupancy UPDATE matches no row) — whereas `check_out` (hotel.py:382-384)
rejects a missing room. -/
theorem check_in_skips_room_check (h : Hotel) (bid pid pd tid : String)
    (today : Int) (b : Booking) (hf : find_booking h bid = some b) :
    (∀ e, check_in h bid today = Except.error e →
      e = HotelErr.bookingNotFound ∨ e = HotelErr.wrongStatus ∨
        e = HotelErr.dateMismatch) ∧
    (b.status = BStatus.booked → find_room h b.room_number = none →
      ∃ h', check_in h bid b.check_in_date = Except.ok h' ∧
        h'.rooms = h.rooms ∧
        find_booking h' bid = some { b with status := BStatus.checked_in }) ∧
    (b.status = BStatus.checked_in → find_room h b.room_number = none →
      check_out h bid b.check_out_date pid pd tid =
        Except.error HotelErr.roomForBookingNotFound) := by
  refine ⟨?_, ?_, ?_⟩
  · intro e he
    unfold check_in at he
    rw [hf] at he
    dsimp only at he
    cases hs : (b.status == BStatus.booked) with
    | false =>
      rw [hs, if_pos (by decide)] at he
      simp only [Except.error.injEq] at he
      exact Or.inr (Or.inl he.symm)
    | true =>
      rw [hs, if_neg (by decide)] at he
      cases hdt : (b.check_in_date == today) with
      | false =>
        rw [hdt, if_pos (by decide)] at he
        simp only [Except.error.injEq] at he
        exact Or.inr (Or.inr he.symm)
      | true =>
        rw [hdt, if_neg (by decide)] at he
        simp at he
  · intro hs hroom
    have hval : check_in h bid b.check_in_date = Except.ok
        { rooms := h.rooms.map (fun r =>
            if r.room_number == b.room_number then
              { r with is_occupied := true }
            else r),
          guests := h.guests,
          bookings := h.bookings.map (fun x =>
            if x.booking_id == bid then
              { x with status := BStatus.checked_in }
            else x),
          payments := h.payments } := by
      simp [check_in, hf, hs]
    refine ⟨_, hval, ?_, ?_⟩
    · show h.rooms.map _ = h.rooms
      unfold find_room at hroom
      rw [List.find?_eq_none] at hroom
      have hmap : ∀ r ∈ h.rooms,
          (if r.room_number == b.room_number then
            { r with is_occupied := true }
          else r) = id r := by
        intro r hr
        rw [if_neg (hroom r hr)]
        rfl
      rw [List.map_congr_left hmap, List.map_id]
    · exact find_booking_after_status_map hf BStatus.checked_in
  · intro hs hroom
    simp [check_out, hf, hs, hroom]

/-- C9 witness: a booked booking for room "101" checks in on its
check-in date even though no room "101" is stored; the rooms table stays
empty and the booking becomes `checked_in`. -/
theorem check_in_skips_room_check_w :
    ∃ h', check_in ⟨[], [],
        [⟨"b1", "g1", "101", 1, 3, BStatus.booked⟩], []⟩ "b1" 1 =
        Except.ok h' ∧
      h'.rooms = ([] : List Room) ∧
      find_booking h' "b1" =
        some ⟨"b1", "g1", "101", 1, 3, BStatus.checked_in⟩ :=
  (check_in_skips_room_check ⟨[], [],
    [⟨"b1", "g1", "101", 1, 3, BStatus.booked⟩], []⟩ "b1" "p" "d" "t" 1
    ⟨"b1", "g1", "101", 1, 3, BStatus.booked⟩ rfl).2.1 rfl rfl

/-- C10: when `cancel_booking` (hotel.py:310) succeeds, the only store
change is the status UPDATE on the targeted booking row: rooms, guests
and payments are untouched and every other booking row is unchanged.  In
particular, cancelling a `checked_in` booking leaves the referenced
room's `is_occupied` field at true — cancellation never frees a room. -/
theorem cancel_frame (h : Hotel) (bid : String) :
    ∀ h', cancel_booking h bid = Except.ok h' →
      h'.rooms = h.rooms ∧ h'.guests = h.guests ∧
      h'.payments = h.payments ∧
      List.Forall₂ (fun x x' =>
        (x.booking_id = bid →
          x' = { x with status := BStatus.cancelled }) ∧
        (x.booking_id ≠ bid → x' = x)) h.bookings h'.bookings := by
  intro h' hok
  unfold cancel_booking at hok
  cases hf : find_booking h bid with
  | none => rw [hf] at hok; simp at hok
  | some b =>
    rw [hf] at hok
    dsimp only at hok
    by_cases hterm :
        (b.status == BStatus.cancelled || b.status == BStatus.checked_out)
          = true
    · rw [if_pos hterm] at hok; simp at hok
    · rw [if_neg hterm] at hok
      simp only [Except.ok.injEq] at hok
      rw [← hok]
      refine ⟨rfl, rfl, rfl, ?_⟩
      rw [List.forall₂_map_right_iff, List.forall₂_same]
      intro x _
      constructor
      · intro hxid
        rw [if_pos (beq_iff_eq.mpr hxid)]
      · intro hxid
        rw [if_neg (fun hc => hxid (beq_iff_eq.mp hc))]

/-- C10 witness: cancelling a checked_in booking for room "101" leaves
the room row occupied. -/
theorem cancel_frame_w :
    (⟨[⟨"101", "single", 12000, true⟩], [],
      [⟨"b1", "g1", "101", 0, 2, BStatus.cancelled⟩], []⟩ : Hotel).rooms =
      [⟨"101", "single", 12000, true⟩] :=
  (cancel_frame ⟨[⟨"101", "single", 12000, true⟩], [],
    [⟨"b1", "g1", "101", 0, 2, BStatus.checked_in⟩], []⟩ "b1"
    ⟨[⟨"101", "single", 12000, true⟩], [],
      [⟨"b1", "g1", "101", 0, 2, BStatus.cancelled⟩], []⟩ rfl).1

theorem flatMap_congr_mem {α β : Type} {l : List α} {f g : α → List β}
    (hfg : ∀ a ∈ l, f a = g a) : l.flatMap f = l.flatMap g := by
  induction l with
  | nil => rfl
  | cons a t ih =>
    rw [List.flatMap_cons, List.flatMap_cons, hfg a (List.mem_cons_self a t),
      ih (fun x hx => hfg x (List.mem_cons_of_mem a hx))]

/-- C8: `get_payment_history` (hotel.py:461) returns exactly the
payments whose booking id belongs to one of the guest's bookings; its
result is unchanged by appending a payment attached to a booking that is
not the guest's. -/
theorem payment_history_spec (h : Hotel) (gid : String) :
    (∀ p, p ∈ get_payment_history h gid ↔
      (p ∈ h.payments ∧ ∃ b ∈ h.bookings, b.guest_id = gid ∧
        p.booking_id = b.booking_id)) ∧
    (∀ q, (∀ b ∈ h.bookings, b.guest_id = gid →
        q.booking_id ≠ b.booking_id) →
      get_payment_history { h with payments := h.payments ++ [q] } gid =
        get_payment_history h gid) := by
  constructor
  · intro p
    unfold get_payment_history
    rw [List.mem_flatMap]
    constructor
    · rintro ⟨b, hb, hp⟩
      rw [List.mem_filter] at hb hp
      exact ⟨hp.1, b, hb.1, beq_iff_eq.mp hb.2, beq_iff_eq.mp hp.2⟩
    · rintro ⟨hp, b, hb, hg, hpb⟩
      exact ⟨b, List.mem_filter.mpr ⟨hb, beq_iff_eq.mpr hg⟩,
        List.mem_filter.mpr ⟨hp, beq_iff_eq.mpr hpb⟩⟩
  · intro q hq
    unfold get_payment_history
    dsimp only
    apply flatMap_congr_mem
    intro b hb
    rw [List.mem_filter] at hb
    rw [List.filter_append]
    have hnil : [q].filter (fun p => p.booking_id == b.booking_id) = [] := by
      rw [List.filter_eq_nil_iff]
      intro a ha
      rw [List.mem_singleton] at ha
      subst ha
      simp only [beq_iff_eq]
      exact hq b hb.1 (beq_iff_eq.mp hb.2)
    rw [hnil, List.append_nil]

/-- C8 witness: appending a payment for another guest's booking leaves
guest "g1"'s payment history unchanged. -/
theorem payment_history_spec_w :
    get_payment_history ⟨[], [],
      [⟨"b1", "g1", "101", 0, 2, BStatus.booked⟩,
        ⟨"b2", "g2", "102", 0, 2, BStatus.booked⟩],
      [⟨"p1", "b1", 100, "d", "card", "completed", "t1"⟩,
        ⟨"p2", "b2", 200, "d", "card", "completed", "t2"⟩]⟩ "g1" =
    get_payment_history ⟨[], [],
      [⟨"b1", "g1", "101", 0, 2, BStatus.booked⟩,
        ⟨"b2", "g2", "102", 0, 2, BStatus.booked⟩],
      [⟨"p1", "b1", 100, "d", "card", "completed", "t1"⟩]⟩ "g1" :=
  (payment_history_spec ⟨[], [],
    [⟨"b1", "g1", "101", 0, 2, BStatus.booked⟩,
      ⟨"b2", "g2", "102", 0, 2, BStatus.booked⟩],
    [⟨"p1", "b1", 100, "d", "card", "completed", "t1"⟩]⟩ "g1").2
    ⟨"p2", "b2", 200, "d", "card", "completed", "t2"⟩ (by decide)

end HotelSys
